import Mathlib

/-!
Verification of the sound-level measurement subsystem implemented in
src/firmware/Power/Sensors/sound_level.c.

The integer- and boolean-valued parts of the firmware (sample collection,
threshold configuration, edge-triggered interrupt policy, boot-time
handling of the persisted enable flag) are embedded as computable
functions over `ℕ` and `Bool`, with machine-width truncation written as
explicit `% 2 ^ w` where an overflow could occur.  The floating-point
statistics pipeline is embedded over `ℚ` (the calibration constants in
the source are decimal literals, hence exact rationals), with the final
`log10` modelled by `Real.logb 10`; `log10` applied to a non-positive
argument, and the subsequent cast of a non-representable value to
`uint16_t`, are undefined and therefore modelled as `none`.
-/

namespace Sensors

/-! Section: Constants (sound_level.c lines 33-40) -/

def SAMPLES : ℕ := 400

def AMP_FACTOR : ℚ := 44

def SENSITIVITY : ℚ := 0.01258925

def V_SUPPLY : ℚ := 3.3

def ADC_SCALE : ℚ := 4095

def REF_PRESSURE : ℚ := 20e-6

def DBZ_MAX : ℚ := 106

def SCALE_FACTOR : ℚ := 600

/-- Calibration constant set in SoundLevel_Init (line 117):
adcScaler = V_SUPPLY / (ADC_SCALE * SENSITIVITY * AMP_FACTOR). -/
def adcScaler : ℚ := V_SUPPLY / (ADC_SCALE * SENSITIVITY * AMP_FACTOR)

/-! Section: Interrupt-driven sample collection (lines 74-93, 231-250, 311-347) -/

/-- The mutable state touched by the ADC interrupt callback:
the sample buffer (a 400-entry `uint16_t` array modelled as a function
from index to stored code), the running counter and sum, the
completion flag `sampling`, and whether the ADC continuous conversion
is still running. -/
structure SamplingState where
  sampleArray : ℕ → ℕ
  sampleCounter : ℕ
  sampleSum : ℕ
  sampling : Bool
  adcContinuous : Bool

/-- SoundLevel_GetSample (lines 231-250): store the conversion code at
index `sampleCounter`, add it to the `uint32_t` running sum, increment
the `uint16_t` counter; once the counter passes SAMPLES-1, stop the ADC
and clear the `sampling` flag. -/
def SoundLevel_GetSample (st : SamplingState) (sample : ℕ) : SamplingState :=
  let arr := Function.update st.sampleArray st.sampleCounter sample
  let sum := (st.sampleSum + sample) % 4294967296
  let counter := (st.sampleCounter + 1) % 65536
  if SAMPLES - 1 < counter then
    { sampleArray := arr, sampleCounter := counter, sampleSum := sum,
      sampling := false, adcContinuous := false }
  else
    { sampleArray := arr, sampleCounter := counter, sampleSum := sum,
      sampling := st.sampling, adcContinuous := st.adcContinuous }

/-- One sampling phase: the callback fires once per conversion, in
arrival order, over the list of conversion codes delivered by the ADC. -/
def runSamples (st : SamplingState) (l : List ℕ) : SamplingState :=
  l.foldl SoundLevel_GetSample st

/-- The control-variable initialisation performed by measure()
(lines 316-319) before sampling starts: `sampling = true`,
`sampleCounter = 0`, `sampleSum = 0`; the global `sampleArray` is
zero-initialised, and the ADC is put in continuous conversion mode. -/
def measureInitState : SamplingState :=
  { sampleArray := fun _ => 0, sampleCounter := 0, sampleSum := 0,
    sampling := true, adcContinuous := true }

/-! Section: Two-pass statistical reduction (lines 252-266) -/

/-- The per-sample deviation-to-pressure conversion inside the
processSamples loop (line 260). -/
def sampleToPressure (sampleAverage : ℚ) (s : ℕ) : ℚ :=
  ((s : ℚ) - sampleAverage) * adcScaler

/-- processSamples (lines 252-266): `sampleAverage = sampleSum / SAMPLES`,
then accumulate the squared pressure deviations into presSumSquared
(which measure() reset to 0 at line 318). -/
def processSamples (samples : List ℕ) (sampleSum : ℕ) : ℚ :=
  samples.foldl
    (fun presSumSquared s =>
      presSumSquared +
        sampleToPressure ((sampleSum : ℚ) / (SAMPLES : ℚ)) s *
          sampleToPressure ((sampleSum : ℚ) / (SAMPLES : ℚ)) s)
    0

/-- Closed form of the presSumSquared accumulation over a completed
400-sample buffer whose running sum is the sum of the buffer. -/
def pssOf (l : List ℕ) : ℚ :=
  (l.map (fun s =>
    sampleToPressure ((l.sum : ℚ) / (SAMPLES : ℚ)) s *
      sampleToPressure ((l.sum : ℚ) / (SAMPLES : ℚ)) s)).sum

/-- The dBZ value computed at line 194:
`dBZ = 10 * log10(presAvgSquared / REF_PRESSURE^2)` with
`presAvgSquared = presSumSquared / SAMPLES`.  Only meaningful for a
positive argument. -/
noncomputable def dbzOf (presSumSquared : ℚ) : ℝ :=
  10 * Real.logb 10
    (((presSumSquared / (SAMPLES : ℚ)) / (REF_PRESSURE * REF_PRESSURE) : ℚ) : ℝ)

/-- SoundLevel_PrepareData, numeric part (lines 192-204): clamp dBZ at
DBZ_MAX, scale by SCALE_FACTOR, round, and cast to `uint16_t`.  The
result is `none` when the computation is undefined: `log10` of a
non-positive argument (a zero-variance buffer), or a float-to-uint16
cast of a value outside `[0, 65536)` - both undefined in C. -/
noncomputable def prepareDataValue (presSumSquared : ℚ) : Option ℕ :=
  if presSumSquared ≤ 0 then none
  else
    let r : ℤ := round (min (dbzOf presSumSquared) ((DBZ_MAX : ℚ) : ℝ) * ((SCALE_FACTOR : ℚ) : ℝ))
    if 0 ≤ r ∧ r < 65536 then some r.toNat else none

/-- The full measurement pipeline of measure() (lines 311-347): collect
the conversion codes, run processSamples over the first SAMPLES buffer
entries with the accumulated running sum, and produce the 16-bit value
that SoundLevel_PrepareData stores into measurementData. -/
noncomputable def measureDataToSend (l : List ℕ) : Option ℕ :=
  prepareDataValue
    (processSamples ((List.range SAMPLES).map (runSamples measureInitState l).sampleArray)
      (runSamples measureInitState l).sampleSum)

/-- The dBZ value computed by the same pipeline (line 194), `none` when
`log10` is taken of a non-positive argument. -/
noncomputable def measureDBZ (l : List ℕ) : Option ℝ :=
  if processSamples ((List.range SAMPLES).map (runSamples measureInitState l).sampleArray)
      (runSamples measureInitState l).sampleSum ≤ 0 then none
  else
    some (dbzOf
      (processSamples ((List.range SAMPLES).map (runSamples measureInitState l).sampleArray)
        (runSamples measureInitState l).sampleSum))

/-- StatisticsEngine.reduce written from the words of spec section 4.2:
mean = sum / capacity; pressure_i = (sample_i - mean) * adcScaler with
adcScaler = V_supply / (ADC_fullscale * sensitivity * amplifierGain);
sumSquares = sum of pressure_i squared; avgSquared = sumSquares / capacity;
dB = 10 * log10(avgSquared / referencePressure^2); clamp dB at 106;
output round(dB * 600) as the transmitted 16-bit value.  The spec leaves
log10 of zero undefined (its stated open question), so that case is
`none`, as is a 16-bit output that does not exist. -/
noncomputable def spec_StatisticsEngine_reduce (samples : List ℕ) : Option ℕ :=
  let mean : ℚ := (samples.sum : ℚ) / 400
  let scaler : ℚ := 3.3 / (4095 * 0.01258925 * 44)
  let sumSquares : ℚ := (samples.map (fun s : ℕ => (((s : ℚ) - mean) * scaler) ^ 2)).sum
  let avgSquared : ℚ := sumSquares / 400
  if avgSquared ≤ 0 then none
  else
    let dB : ℝ := 10 * Real.logb 10 ((avgSquared / (20e-6 : ℚ) ^ 2 : ℚ) : ℝ)
    let r : ℤ := round (min dB 106 * 600)
    if 0 ≤ r ∧ r < 65536 then some r.toNat else none

/-! Section: Threshold / interrupt policy (lines 179-188, 206-223) -/

/-- The two bits of state read and written by the notification part of
SoundLevel_PrepareData: the edge flag `overThreshold` and the watchdog
software-enable bit WDTCON0bits.SWDTEN. -/
structure NotifyState where
  overThreshold : Bool
  swdten : Bool
deriving DecidableEq

/-- Notification logic of SoundLevel_PrepareData (lines 206-223).
Returns whether generateInt() pulses the host-interrupt line, and the
updated state.  If `polledMeasurement` is set the line is always pulsed
and nothing else changes; otherwise the line is pulsed only on a rising
edge of `dataToSend > thresholdLevel`, `overThreshold` is cleared when
`dataToSend <= thresholdLevel`, and SWDTEN is set on every autonomous
completion.  The persisted `thresholdEnabled` flag is not read here at
all: it only gates the start of autonomous cycles in SoundLevel_Loop. -/
def SoundLevel_notify (polledMeasurement : Bool) (thresholdLevel dataToSend : ℕ)
    (st : NotifyState) : Bool × NotifyState :=
  if polledMeasurement then (true, st)
  else
    if thresholdLevel < dataToSend then
      if st.overThreshold then (false, { overThreshold := st.overThreshold, swdten := true })
      else (true, { overThreshold := true, swdten := true })
    else (false, { overThreshold := false, swdten := true })

/-- A sequence of completed autonomous (non-polled) cycles with the given
scaled results: the list of interrupt assertions, cycle by cycle. -/
def autonomousRun (thresholdLevel : ℕ) : NotifyState → List ℕ → List Bool
  | _, [] => []
  | st, v :: rest =>
    (SoundLevel_notify false thresholdLevel v st).1 ::
      autonomousRun thresholdLevel (SoundLevel_notify false thresholdLevel v st).2 rest

/-- The configuration written by SoundLevel_SetThreshold, together with
the watchdog software-enable bit it may set. -/
structure ThresholdConfig where
  thresholdEnabled : ℕ
  thresholdLevel : ℕ
  swdten : Bool
deriving DecidableEq

/-- SoundLevel_SetThreshold (lines 179-188): only metric 0 is handled;
it stores payload byte 0 into thresholdEnabled, stores
`(uint16_t)((thresholdData[3] << 8) | thresholdData[4])` into
thresholdLevel, and sets SWDTEN when the new enable value is nonzero.
Every other metric value leaves everything unchanged; the function has
no error channel. -/
def SoundLevel_SetThreshold (metric : ℕ) (thresholdData : ℕ → ℕ)
    (cfg : ThresholdConfig) : ThresholdConfig :=
  if metric = 0 then
    { thresholdEnabled := thresholdData 0,
      thresholdLevel := (thresholdData 3 <<< 8 ||| thresholdData 4) % 65536,
      swdten := if thresholdData 0 ≠ 0 then true else cfg.swdten }
  else cfg

/-! Section: Boot-time handling of the persisted enable flag (lines 124-138) -/

/-- The boot-time update of the `__persistent` thresholdEnabled variable
in SoundLevel_Init (lines 129-133): it is cleared exactly when the
STATUS.nTO bit reads 1, and keeps its pre-reset value otherwise. -/
def SoundLevel_Init_thresholdEnabled (nTO : Bool) (persisted : ℕ) : ℕ :=
  if nTO then 0 else persisted

/-- Hardware semantics of the STATUS.nTO bit at boot, as documented by
the source itself (comment at line 128: CLRWDT resets it to 1 and it
becomes 0 after a watchdog timeout; SoundLevel_Loop at line 152 likewise
treats nTO = 0 as a watchdog overflow): after a reset, nTO reads 0
exactly when the reset cause was a watchdog-timer expiry. -/
def STATUS_nTO_afterReset (watchdogExpiry : Bool) : Bool := !watchdogExpiry

/-! Section: Concrete inputs used by the witnesses -/

/-- A 400-sample buffer of maximal variance: 200 codes of 0 followed by
200 codes of 65535. -/
def loudList : List ℕ := List.replicate 200 0 ++ List.replicate 200 65535

/-- The dBZ value the pipeline computes on `loudList`. -/
noncomputable def loudDBZ : ℝ := dbzOf (pssOf loudList)

/-- A 400-sample buffer: 200 codes of 7 followed by 200 codes of 9. -/
def permList1 : List ℕ := List.replicate 200 7 ++ List.replicate 200 9

/-- The same multiset of codes in the opposite block order. -/
def permList2 : List ℕ := List.replicate 200 9 ++ List.replicate 200 7

/-! Section: Helper lemmas -/

theorem shiftLeft_or_eq (a b : ℕ) (ha : a < 256) (hb : b < 256) :
    (a <<< 8 ||| b) % 65536 = 256 * a + b := by
  have h256 : (2 : ℕ) ^ 8 = 256 := by norm_num
  have h1 : a <<< 8 = 2 ^ 8 * a := by rw [Nat.shiftLeft_eq]; ring
  have h2 : 2 ^ 8 * a ||| b = 2 ^ 8 * a + b :=
    (Nat.mul_add_lt_is_or (h256 ▸ hb) a).symm
  rw [h1, h2, h256]
  have hlt : 256 * a + b < 65536 := by omega
  rw [Nat.mod_eq_of_lt hlt]

theorem foldl_add_map (g : ℕ → ℚ) (l : List ℕ) (a : ℚ) :
    l.foldl (fun acc s => acc + g s) a = a + (l.map g).sum := by
  induction l generalizing a with
  | nil => simp
  | cons x rest ih => simp [ih, add_assoc]

theorem processSamples_eq_sum (samples : List ℕ) (sampleSum : ℕ) :
    processSamples samples sampleSum =
      (samples.map (fun s =>
        sampleToPressure ((sampleSum : ℚ) / (SAMPLES : ℚ)) s *
          sampleToPressure ((sampleSum : ℚ) / (SAMPLES : ℚ)) s)).sum := by
  unfold processSamples
  rw [foldl_add_map
    (fun s => sampleToPressure ((sampleSum : ℚ) / (SAMPLES : ℚ)) s *
      sampleToPressure ((sampleSum : ℚ) / (SAMPLES : ℚ)) s)]
  rw [zero_add]

theorem map_getD_range : ∀ (l : List ℕ),
    (List.range l.length).map (fun i => l.getD i 0) = l
  | [] => by simp
  | x :: rest => by
    rw [List.length_cons, List.range_succ_eq_map]
    simp only [List.map_cons, List.getD_cons_zero, List.map_map]
    have h : ((fun i => (x :: rest).getD i 0) ∘ Nat.succ) = fun i => rest.getD i 0 := by
      funext i
      simp [Function.comp, List.getD_cons_succ]
    rw [h, map_getD_range rest]

theorem runSamples_inv (l : List ℕ) : ∀ (st : SamplingState),
    st.sampleCounter + l.length ≤ 400 →
    st.sampleSum + l.sum < 4294967296 →
    (runSamples st l).sampleCounter = st.sampleCounter + l.length ∧
    (runSamples st l).sampleSum = st.sampleSum + l.sum ∧
    (∀ i : ℕ,
      (runSamples st l).sampleArray i =
        if st.sampleCounter ≤ i ∧ i < st.sampleCounter + l.length
        then l.getD (i - st.sampleCounter) 0
        else st.sampleArray i) ∧
    (st.sampleCounter + l.length < 400 →
      (runSamples st l).sampling = st.sampling ∧
      (runSamples st l).adcContinuous = st.adcContinuous) ∧
    (l ≠ [] → st.sampleCounter + l.length = 400 →
      (runSamples st l).sampling = false ∧ (runSamples st l).adcContinuous = false) := by
  induction l with
  | nil =>
    intro st hc hs
    refine ⟨by simp [runSamples], by simp [runSamples], ?_,
      fun _ => ⟨rfl, rfl⟩, fun h _ => absurd rfl h⟩
    intro i
    rw [if_neg (by simp only [List.length_nil]; omega)]
    rfl
  | cons x rest ih =>
    intro st hc hs
    have hxsum : (x :: rest).sum = x + rest.sum := List.sum_cons
    simp only [List.length_cons] at hc
    have hcm : (st.sampleCounter + 1) % 65536 = st.sampleCounter + 1 :=
      Nat.mod_eq_of_lt (by omega)
    have hsm : (st.sampleSum + x) % 4294967296 = st.sampleSum + x :=
      Nat.mod_eq_of_lt (by omega)
    by_cases hfull : st.sampleCounter + 1 = 400
    · have hlen0 : rest.length = 0 := by omega
      have hrest : rest = [] := List.length_eq_zero.mp hlen0
      subst hrest
      have hst' : SoundLevel_GetSample st x =
          { sampleArray := Function.update st.sampleArray st.sampleCounter x,
            sampleCounter := st.sampleCounter + 1, sampleSum := st.sampleSum + x,
            sampling := false, adcContinuous := false } := by
        simp only [SoundLevel_GetSample]
        rw [hcm, hsm, if_pos (by simp only [SAMPLES]; omega)]
      have hrun : runSamples st [x] = SoundLevel_GetSample st x := rfl
      refine ⟨?_, ?_, ?_, ?_, ?_⟩
      · rw [hrun, hst']; simp
      · rw [hrun, hst']; simp [hxsum]
      · intro i
        rw [hrun, hst']
        dsimp only
        rw [Function.update_apply]
        by_cases hi : i = st.sampleCounter
        · subst hi; simp
        · rw [if_neg hi, if_neg (by simp only [List.length_cons, List.length_nil]; omega)]
      · intro h
        simp only [List.length_cons, List.length_nil] at h
        omega
      · intro _ _
        rw [hrun, hst']
        exact ⟨rfl, rfl⟩
    · have hst' : SoundLevel_GetSample st x =
          { sampleArray := Function.update st.sampleArray st.sampleCounter x,
            sampleCounter := st.sampleCounter + 1, sampleSum := st.sampleSum + x,
            sampling := st.sampling, adcContinuous := st.adcContinuous } := by
        simp only [SoundLevel_GetSample]
        rw [hcm, hsm, if_neg (by simp only [SAMPLES]; omega)]
      have hrun : runSamples st (x :: rest) = runSamples (SoundLevel_GetSample st x) rest := rfl
      obtain ⟨ih1, ih2, ih3, ih4, ih5⟩ := ih (SoundLevel_GetSample st x)
        (by rw [hst']; dsimp only; omega)
        (by rw [hst']; dsimp only; omega)
      refine ⟨?_, ?_, ?_, ?_, ?_⟩
      · rw [hrun, ih1, hst']; simp; omega
      · rw [hrun, ih2, hst']; simp [hxsum]; omega
      · intro i
        rw [hrun, ih3 i, hst']
        dsimp only
        simp only [List.length_cons]
        by_cases h1 : st.sampleCounter + 1 ≤ i ∧ i < st.sampleCounter + 1 + rest.length
        · rw [if_pos h1, if_pos (by omega)]
          have hidx : i - st.sampleCounter = (i - (st.sampleCounter + 1)) + 1 := by omega
          rw [hidx, List.getD_cons_succ]
        · rw [if_neg h1, Function.update_apply]
          by_cases h2 : i = st.sampleCounter
          · subst h2
            rw [if_pos rfl, if_pos (by omega)]
            simp
          · rw [if_neg h2, if_neg (by omega)]
      · intro h
        simp only [List.length_cons] at h
        obtain ⟨hs1, hs2⟩ := ih4 (by rw [hst']; dsimp only; omega)
        rw [hrun, hs1, hs2, hst']
        exact ⟨rfl, rfl⟩
      · intro _ h400
        simp only [List.length_cons] at h400
        have hrne : rest ≠ [] := by
          intro hr
          subst hr
          simp only [List.length_nil] at h400
          omega
        obtain ⟨hs1, hs2⟩ := ih5 hrne (by rw [hst']; dsimp only; omega)
        rw [hrun, hs1, hs2]
        exact ⟨rfl, rfl⟩

/-! Section: Claim theorems -/

/-- C1: the claim states that the persisted thresholdEnabled flag is
forced to 0 during SoundLevel_Init exactly when boot-time reset-cause
detection reports a watchdog expiry, and keeps its pre-reset value on
every other cause.  The code does the opposite: with nTO reading 0
after a watchdog-expiry reset (the semantics the source itself
documents at line 128 and uses in SoundLevel_Loop at line 152), the
guard at line 129 keeps the persisted value 1 after a watchdog-expiry
boot and clears it after every other reset. -/
theorem c1_init_reset_cause_inverted :
    SoundLevel_Init_thresholdEnabled (STATUS_nTO_afterReset true) 1 = 1 ∧
    SoundLevel_Init_thresholdEnabled (STATUS_nTO_afterReset false) 1 = 0 := by
  decide

/-- C3: in the autonomous path with level 50000 and edge state below,
the scaled results [60000, 60000, 40000, 60000] assert the interrupt
exactly on cycles 1 and 4; further, a value above the level never
asserts while the edge state is already above, and any value at or
below the level clears the edge state and does not assert. -/
theorem c3_edge_triggered :
    autonomousRun 50000 { overThreshold := false, swdten := true }
        [60000, 60000, 40000, 60000] = [true, false, false, true] ∧
    (∀ (level v : ℕ) (st : NotifyState), level < v → st.overThreshold = true →
      (SoundLevel_notify false level v st).1 = false) ∧
    (∀ (level v : ℕ) (st : NotifyState), v ≤ level →
      (SoundLevel_notify false level v st).1 = false ∧
      (SoundLevel_notify false level v st).2.overThreshold = false) := by
  refine ⟨by decide, ?_, ?_⟩
  · intro level v st hlt hover
    simp [SoundLevel_notify, hlt, hover]
  · intro level v st hle
    simp [SoundLevel_notify, Nat.not_lt.mpr hle]

/-- Witness for C3 at concrete inputs. -/
theorem c3_edge_triggered_witness :
    (SoundLevel_notify false 50000 60000 { overThreshold := true, swdten := true }).1 = false ∧
    (SoundLevel_notify false 50000 40000 { overThreshold := true, swdten := true }).2.overThreshold = false :=
  ⟨c3_edge_triggered.2.1 50000 60000 { overThreshold := true, swdten := true } (by decide) rfl,
   (c3_edge_triggered.2.2 50000 40000 { overThreshold := true, swdten := true } (by decide)).2⟩

/-- C6: a polled (explicitly requested) cycle always pulses the host
interrupt on completion, for every threshold level and edge state, and
leaves the edge state (and SWDTEN) unchanged.  The thresholdEnabled
flag is not read anywhere in SoundLevel_PrepareData, so the assertion
is independent of it as well. -/
theorem c6_polled_always_asserts (thresholdLevel dataToSend : ℕ) (st : NotifyState) :
    SoundLevel_notify true thresholdLevel dataToSend st = (true, st) := by
  simp [SoundLevel_notify]

/-- C7: every metric other than 0 leaves the threshold configuration
(enable flag, level, and SWDTEN) unchanged; the function has no error
channel, so no error is raised. -/
theorem c7_other_metric_ignored (metric : ℕ) (thresholdData : ℕ → ℕ)
    (cfg : ThresholdConfig) (h : metric ≠ 0) :
    SoundLevel_SetThreshold metric thresholdData cfg = cfg := by
  simp [SoundLevel_SetThreshold, h]

/-- Witness for C7 at metric 1. -/
theorem c7_other_metric_ignored_witness :
    SoundLevel_SetThreshold 1 (fun _ => 37)
        { thresholdEnabled := 5, thresholdLevel := 1234, swdten := false } =
      { thresholdEnabled := 5, thresholdLevel := 1234, swdten := false } :=
  c7_other_metric_ignored 1 (fun _ => 37)
    { thresholdEnabled := 5, thresholdLevel := 1234, swdten := false } (by decide)

/-- C10: metric 0 stores payload byte 0 into the enable flag and the
big-endian 16-bit value formed from payload bytes 3 (high) and 4 (low)
into the level, skipping bytes 1 and 2, and software-enables the
watchdog exactly when the new enable byte is nonzero. -/
theorem c10_metric0_update (thresholdData : ℕ → ℕ) (cfg : ThresholdConfig)
    (h3 : thresholdData 3 < 256) (h4 : thresholdData 4 < 256) :
    SoundLevel_SetThreshold 0 thresholdData cfg =
      { thresholdEnabled := thresholdData 0,
        thresholdLevel := 256 * thresholdData 3 + thresholdData 4,
        swdten := if thresholdData 0 ≠ 0 then true else cfg.swdten } := by
  simp only [SoundLevel_SetThreshold, if_pos rfl, if_true]
  rw [shiftLeft_or_eq (thresholdData 3) (thresholdData 4) h3 h4]

/-- Witness for C10 with payload bytes 1, 0, 0, 4, 5. -/
theorem c10_metric0_update_witness :
    SoundLevel_SetThreshold 0 (fun i => [1, 0, 0, 4, 5].getD i 0)
        { thresholdEnabled := 0, thresholdLevel := 0, swdten := false } =
      { thresholdEnabled := 1, thresholdLevel := 1029, swdten := true } := by
  rw [c10_metric0_update (fun i => [1, 0, 0, 4, 5].getD i 0)
    { thresholdEnabled := 0, thresholdLevel := 0, swdten := false } (by decide) (by decide)]
  decide

theorem runSamples_complete (l : List ℕ) (hlen : l.length = 400)
    (hbound : ∀ x ∈ l, x < 65536) :
    (runSamples measureInitState l).sampleSum = l.sum ∧
    (List.range SAMPLES).map (runSamples measureInitState l).sampleArray = l := by
  have hsum : l.sum < 4294967296 := by
    have h1 : l.sum ≤ l.length • 65535 :=
      List.sum_le_card_nsmul l 65535 (fun x hx => by have := hbound x hx; omega)
    have h2 : l.length • 65535 = l.length * 65535 := nsmul_eq_mul l.length 65535
    omega
  obtain ⟨h1, h2, h3, h4, h5⟩ := runSamples_inv l measureInitState
    (by simp only [measureInitState]; omega)
    (by simp only [measureInitState]; omega)
  have e1 : measureInitState.sampleCounter = 0 := rfl
  have e2 : measureInitState.sampleSum = 0 := rfl
  rw [e1] at h3
  rw [e2] at h2
  simp only [Nat.zero_add, Nat.sub_zero] at h2 h3
  refine ⟨h2, ?_⟩
  have harr : ∀ i ∈ List.range SAMPLES,
      (runSamples measureInitState l).sampleArray i = l.getD i 0 := by
    intro i hi
    rw [List.mem_range] at hi
    rw [h3 i, if_pos (by simp only [SAMPLES] at hi; omega)]
  calc (List.range SAMPLES).map (runSamples measureInitState l).sampleArray
      = (List.range SAMPLES).map (fun i => l.getD i 0) := List.map_congr_left harr
    _ = l := by
        rw [show SAMPLES = l.length by rw [hlen]; rfl]
        exact map_getD_range l

theorem measureDataToSend_eq (l : List ℕ) (hlen : l.length = 400)
    (hbound : ∀ x ∈ l, x < 65536) :
    measureDataToSend l = prepareDataValue (pssOf l) := by
  obtain ⟨hs, ha⟩ := runSamples_complete l hlen hbound
  unfold measureDataToSend
  rw [ha, hs, processSamples_eq_sum]
  rfl

theorem measureDBZ_eq (l : List ℕ) (hlen : l.length = 400)
    (hbound : ∀ x ∈ l, x < 65536) :
    measureDBZ l = if pssOf l ≤ 0 then none else some (dbzOf (pssOf l)) := by
  obtain ⟨hs, ha⟩ := runSamples_complete l hlen hbound
  unfold measureDBZ
  rw [ha, hs, processSamples_eq_sum]
  rfl

theorem pssOf_replicate (c : ℕ) : pssOf (List.replicate 400 c) = 0 := by
  unfold pssOf sampleToPressure
  rw [List.map_replicate, List.sum_replicate]
  have hsum : (((List.replicate 400 c).sum : ℕ) : ℚ) = 400 * (c : ℚ) := by
    rw [List.sum_replicate]
    push_cast [nsmul_eq_mul]
    ring
  rw [hsum]
  have hmean : (400 : ℚ) * (c : ℚ) / (SAMPLES : ℚ) = (c : ℚ) := by
    simp only [SAMPLES]
    push_cast
    field_simp
  rw [hmean]
  simp

theorem loudList_bound : ∀ x ∈ loudList, x < 65536 := by
  intro x hx
  unfold loudList at hx
  rw [List.mem_append] at hx
  rcases hx with h | h <;> have := List.eq_of_mem_replicate h <;> omega

theorem loud_pss_pos : 0 < pssOf loudList := by
  unfold pssOf loudList sampleToPressure adcScaler V_SUPPLY ADC_SCALE SENSITIVITY AMP_FACTOR SAMPLES
  simp only [List.map_append, List.map_replicate, List.sum_append, List.sum_replicate,
    nsmul_eq_mul]
  push_cast
  norm_num

theorem loud_X_ge :
    (10 : ℚ) ^ 11 ≤ pssOf loudList / (SAMPLES : ℚ) / (REF_PRESSURE * REF_PRESSURE) := by
  unfold pssOf loudList sampleToPressure adcScaler V_SUPPLY ADC_SCALE SENSITIVITY AMP_FACTOR
    SAMPLES REF_PRESSURE
  simp only [List.map_append, List.map_replicate, List.sum_append, List.sum_replicate,
    nsmul_eq_mul]
  push_cast
  norm_num

theorem dbz_gt_106_of_ge (q : ℚ) (h : (10 : ℚ) ^ 11 ≤ q) :
    (106 : ℝ) < 10 * Real.logb 10 (q : ℝ) := by
  have hq : ((10 : ℝ) ^ (11 : ℕ)) ≤ (q : ℝ) := by exact_mod_cast h
  have hpow : (0 : ℝ) < 10 ^ (11 : ℕ) := by positivity
  have hlog : Real.log ((10 : ℝ) ^ (11 : ℕ)) ≤ Real.log (q : ℝ) := Real.log_le_log hpow hq
  rw [Real.log_pow] at hlog
  have hlog10 : (0 : ℝ) < Real.log 10 := Real.log_pos (by norm_num)
  have h11 : (11 : ℝ) ≤ Real.logb 10 (q : ℝ) := by
    rw [Real.logb, le_div_iff₀ hlog10]
    calc (11 : ℝ) * Real.log 10 = ((11 : ℕ) : ℝ) * Real.log 10 := by norm_num
      _ ≤ Real.log (q : ℝ) := hlog
  linarith

/-- C9: starting a sampling cycle with sampleCounter = 0 and
sampleSum = 0, after any number of callback invocations (at most the
capacity, with uint16 conversion codes) the counter equals the number
of samples received, the running sum equals the sum of the stored
samples (the first sampleCounter entries of sampleArray, which are
exactly the received codes in order), and the ADC is stopped and the
completion signal set (sampling cleared) exactly when the count
reaches 400. -/
theorem c9_sample_collection (l : List ℕ) (hlen : l.length ≤ 400)
    (hbound : ∀ x ∈ l, x < 65536) :
    (runSamples measureInitState l).sampleCounter = l.length ∧
    (runSamples measureInitState l).sampleSum = l.sum ∧
    (List.range l.length).map (runSamples measureInitState l).sampleArray = l ∧
    ((runSamples measureInitState l).sampling = false ↔ l.length = 400) ∧
    ((runSamples measureInitState l).adcContinuous = false ↔ l.length = 400) := by
  have hsum : l.sum < 4294967296 := by
    have h1 : l.sum ≤ l.length • 65535 :=
      List.sum_le_card_nsmul l 65535 (fun x hx => by have := hbound x hx; omega)
    have h2 : l.length • 65535 = l.length * 65535 := nsmul_eq_mul l.length 65535
    have h3 : l.length * 65535 ≤ 400 * 65535 := Nat.mul_le_mul_right 65535 hlen
    omega
  obtain ⟨h1, h2, h3, h4, h5⟩ := runSamples_inv l measureInitState
    (by simp only [measureInitState]; omega)
    (by simp only [measureInitState]; omega)
  have e1 : measureInitState.sampleCounter = 0 := rfl
  have e2 : measureInitState.sampleSum = 0 := rfl
  have e3 : measureInitState.sampling = true := rfl
  have e4 : measureInitState.adcContinuous = true := rfl
  rw [e1] at h1 h3 h4 h5
  rw [e2] at h2
  rw [e3] at h4
  rw [e4] at h4
  simp only [Nat.zero_add, Nat.sub_zero] at h1 h2 h3 h4 h5
  refine ⟨h1, h2, ?_, ?_, ?_⟩
  · have harr : ∀ i ∈ List.range l.length,
        (runSamples measureInitState l).sampleArray i = l.getD i 0 := by
      intro i hi
      rw [List.mem_range] at hi
      rw [h3 i, if_pos (by omega)]
    calc (List.range l.length).map (runSamples measureInitState l).sampleArray
        = (List.range l.length).map (fun i => l.getD i 0) := List.map_congr_left harr
      _ = l := map_getD_range l
  · by_cases hfull : l.length = 400
    · have hne : l ≠ [] := by
        intro h
        rw [h] at hfull
        simp at hfull
      have hstop := h5 hne (by omega)
      exact ⟨fun _ => hfull, fun _ => hstop.1⟩
    · have hkeep := h4 (by omega)
      rw [hkeep.1]
      simp only [Bool.true_eq_false, false_iff]
      omega
  · by_cases hfull : l.length = 400
    · have hne : l ≠ [] := by
        intro h
        rw [h] at hfull
        simp at hfull
      have hstop := h5 hne (by omega)
      exact ⟨fun _ => hfull, fun _ => hstop.2⟩
    · have hkeep := h4 (by omega)
      rw [hkeep.2]
      simp only [Bool.true_eq_false, false_iff]
      omega

/-- C2: on a sample sequence of 400 identical values the variance is
zero, presSumSquared is 0, and line 194 takes log10(0): the pipeline
does not produce a defined finite 16-bit value (the cast of the
resulting non-finite float to uint16_t is undefined in C), contrary to
the claim.  The spec itself flags this case as an open question that
the code leaves unhandled. -/
theorem c2_zero_variance_undefined :
    measureDataToSend (List.replicate 400 1000) = none := by
  rw [measureDataToSend_eq (List.replicate 400 1000) (by rw [List.length_replicate])
    (fun x hx => by have := List.eq_of_mem_replicate hx; omega)]
  rw [pssOf_replicate]
  simp [prepareDataValue]

/-- C4: whenever the dBZ value computed by the pipeline exceeds 106,
the clamp at DBZ_MAX makes the transmitted 16-bit value exactly
round(106 * 600) = 63600. -/
theorem c4_clamp_63600 (l : List ℕ) (d : ℝ) (hd : measureDBZ l = some d)
    (h106 : (106 : ℝ) < d) : measureDataToSend l = some 63600 := by
  unfold measureDBZ at hd
  set P := processSamples ((List.range SAMPLES).map (runSamples measureInitState l).sampleArray)
    (runSamples measureInitState l).sampleSum with hP
  by_cases hp : P ≤ 0
  · rw [if_pos hp] at hd
    simp at hd
  · rw [if_neg hp] at hd
    have hdb : dbzOf P = d := Option.some.inj hd
    have hmax : ((DBZ_MAX : ℚ) : ℝ) = 106 := by norm_num [DBZ_MAX]
    have hmin : min (dbzOf P) ((DBZ_MAX : ℚ) : ℝ) = ((DBZ_MAX : ℚ) : ℝ) := by
      apply min_eq_right
      rw [hdb, hmax]
      exact h106.le
    unfold measureDataToSend prepareDataValue
    rw [← hP, if_neg hp, hmin]
    have hval : ((DBZ_MAX : ℚ) : ℝ) * ((SCALE_FACTOR : ℚ) : ℝ) = ((63600 : ℤ) : ℝ) := by
      norm_num [DBZ_MAX, SCALE_FACTOR]
    rw [hval, round_intCast]
    norm_num
    rfl

/-- Witness helper: the pipeline's dBZ on the maximal-variance buffer. -/
theorem loudList_length : loudList.length = 400 := by
  unfold loudList
  rw [List.length_append, List.length_replicate, List.length_replicate]

/-- Witness helper: the pipeline's dBZ on the maximal-variance buffer
is exactly `loudDBZ`. -/
theorem loud_dbz_some : measureDBZ loudList = some loudDBZ := by
  rw [measureDBZ_eq loudList loudList_length loudList_bound,
    if_neg (not_le.mpr loud_pss_pos)]
  rfl

/-- Witness helper: that dBZ exceeds 106. -/
theorem loud_dbz_gt : (106 : ℝ) < loudDBZ := by
  unfold loudDBZ dbzOf
  exact dbz_gt_106_of_ge (pssOf loudList / (SAMPLES : ℚ) / (REF_PRESSURE * REF_PRESSURE))
    loud_X_ge

/-- Witness for C4 on the maximal-variance buffer. -/
theorem c4_clamp_63600_witness : measureDataToSend loudList = some 63600 :=
  c4_clamp_63600 loudList loudDBZ loud_dbz_some loud_dbz_gt

/-- C5: the two-pass reduction is order-independent: for every 400
uint16 samples and every permutation of them the pipeline yields the
identical transmitted scaled decibel value. -/
theorem c5_permutation_invariant (l1 l2 : List ℕ) (hperm : l1.Perm l2)
    (hlen : l1.length = 400) (hbound : ∀ x ∈ l1, x < 65536) :
    measureDataToSend l1 = measureDataToSend l2 := by
  have hlen2 : l2.length = 400 := by rw [← hperm.length_eq]; exact hlen
  have hbound2 : ∀ x ∈ l2, x < 65536 := fun x hx => hbound x (hperm.mem_iff.mpr hx)
  rw [measureDataToSend_eq l1 hlen hbound, measureDataToSend_eq l2 hlen2 hbound2]
  have hpss : pssOf l1 = pssOf l2 := by
    unfold pssOf
    rw [hperm.sum_eq]
    exact (hperm.map _).sum_eq
  rw [hpss]

/-- Witness for C5 on two block-orderings of the same multiset. -/
theorem c5_permutation_invariant_witness :
    measureDataToSend permList1 = measureDataToSend permList2 :=
  c5_permutation_invariant permList1 permList2 List.perm_append_comm
    (by unfold permList1; rw [List.length_append, List.length_replicate, List.length_replicate])
    (fun x hx => by
      unfold permList1 at hx
      rw [List.mem_append] at hx
      rcases hx with h | h <;> have := List.eq_of_mem_replicate h <;> omega)

/-- C8: on every completed 400-sample uint16 buffer, the code pipeline
computes exactly the reduction stated by the spec: mean = sum / 400,
pressure deviations scaled by adcScaler = 3.3 / (4095 * 0.01258925 * 44),
sumSquares, avgSquared = sumSquares / 400,
dB = 10 * log10(avgSquared / (20e-6)^2), clamped at 106, transmitted as
round(dB * 600) in 16 bits. -/
theorem c8_reduction_formula (l : List ℕ) (hlen : l.length = 400)
    (hbound : ∀ x ∈ l, x < 65536) :
    measureDataToSend l = spec_StatisticsEngine_reduce l := by
  rw [measureDataToSend_eq l hlen hbound]
  have hscaler : (3.3 : ℚ) / (4095 * 0.01258925 * 44) = adcScaler := by
    norm_num [adcScaler, V_SUPPLY, ADC_SCALE, SENSITIVITY, AMP_FACTOR]
  have hcap : ((SAMPLES : ℕ) : ℚ) = 400 := by norm_num [SAMPLES]
  have hSS :
      (l.map (fun s : ℕ => (((s : ℚ) - (l.sum : ℚ) / 400) * (3.3 / (4095 * 0.01258925 * 44))) ^ 2)).sum
        = pssOf l := by
    unfold pssOf sampleToPressure
    congr 1
    apply List.map_congr_left
    intro s _
    rw [hscaler, hcap]
    ring
  have hguard : pssOf l ≤ 0 ↔ pssOf l / 400 ≤ 0 := by
    rw [div_nonpos_iff]
    norm_num
  simp only [prepareDataValue, spec_StatisticsEngine_reduce, dbzOf]
  rw [hSS, hcap]
  have hdbzmax : ((DBZ_MAX : ℚ) : ℝ) = 106 := by norm_num [DBZ_MAX]
  have hscale : ((SCALE_FACTOR : ℚ) : ℝ) = 600 := by norm_num [SCALE_FACTOR]
  have href : REF_PRESSURE * REF_PRESSURE = (20e-6 : ℚ) ^ 2 := by norm_num [REF_PRESSURE]
  rw [hdbzmax, hscale, href]
  exact if_congr hguard rfl rfl

/-- Witness for C8 on the constant buffer of 400 samples of value 3
(both sides are undefined there, and equally so). -/
theorem c8_reduction_formula_witness :
    measureDataToSend (List.replicate 400 3) = spec_StatisticsEngine_reduce (List.replicate 400 3) :=
  c8_reduction_formula (List.replicate 400 3) (by rw [List.length_replicate])
    (fun x hx => by have := List.eq_of_mem_replicate hx; omega)

/-- Witness for C9 on the three-sample prefix [5, 7, 9]. -/
theorem c9_sample_collection_witness :
    (runSamples measureInitState [5, 7, 9]).sampleCounter = [5, 7, 9].length ∧
    (runSamples measureInitState [5, 7, 9]).sampleSum = [5, 7, 9].sum ∧
    (List.range [5, 7, 9].length).map (runSamples measureInitState [5, 7, 9]).sampleArray
      = [5, 7, 9] ∧
    ((runSamples measureInitState [5, 7, 9]).sampling = false ↔ [5, 7, 9].length = 400) ∧
    ((runSamples measureInitState [5, 7, 9]).adcContinuous = false ↔ [5, 7, 9].length = 400) :=
  c9_sample_collection [5, 7, 9] (by decide) (by decide)

end Sensors
